import Mathlib

/-!
Verification of the market-maker broadcaster / bot against its sources.

The backend logic lives in `python-proxy` (FastAPI broadcaster plus the
market-making bot).  The repository ships the broadcaster and bot logic as
code excerpts inside `BROADCASTER_ARCHITECTURE.md`, `CHANGELOG.md` and the
bot/signing guides, together with the TypeScript frontend under `src/`.
Each definition below is a shallow embedding of one of those source
functions; doc comments name the file and function embedded.
-/

/-- JSON values as exchanged by the broadcaster.  Python `None` and JSON
`null` are both `JVal.null`; numbers in payloads are modelled as integers
(the change detector only ever compares payloads for equality, so the
number representation is irrelevant as long as it is faithful per value). -/
inductive JVal where
  | null : JVal
  | bool (b : Bool) : JVal
  | num (n : Int) : JVal
  | str (s : String) : JVal
  | arr (xs : List JVal) : JVal
  | obj (kvs : List (String × JVal)) : JVal

mutual

/-- Decidable equality for JSON values (structural, as Python `==` on the
decoded payloads). -/
def decEqJVal : (a b : JVal) → Decidable (a = b)
  | .null, .null => isTrue rfl
  | .null, .bool _ => isFalse (fun h => JVal.noConfusion h)
  | .null, .num _ => isFalse (fun h => JVal.noConfusion h)
  | .null, .str _ => isFalse (fun h => JVal.noConfusion h)
  | .null, .arr _ => isFalse (fun h => JVal.noConfusion h)
  | .null, .obj _ => isFalse (fun h => JVal.noConfusion h)
  | .bool _, .null => isFalse (fun h => JVal.noConfusion h)
  | .bool a, .bool b =>
    match decEq a b with
    | isTrue h => isTrue (h ▸ rfl)
    | isFalse h => isFalse (fun e => h (by cases e; rfl))
  | .bool _, .num _ => isFalse (fun h => JVal.noConfusion h)
  | .bool _, .str _ => isFalse (fun h => JVal.noConfusion h)
  | .bool _, .arr _ => isFalse (fun h => JVal.noConfusion h)
  | .bool _, .obj _ => isFalse (fun h => JVal.noConfusion h)
  | .num _, .null => isFalse (fun h => JVal.noConfusion h)
  | .num _, .bool _ => isFalse (fun h => JVal.noConfusion h)
  | .num a, .num b =>
    match decEq a b with
    | isTrue h => isTrue (h ▸ rfl)
    | isFalse h => isFalse (fun e => h (by cases e; rfl))
  | .num _, .str _ => isFalse (fun h => JVal.noConfusion h)
  | .num _, .arr _ => isFalse (fun h => JVal.noConfusion h)
  | .num _, .obj _ => isFalse (fun h => JVal.noConfusion h)
  | .str _, .null => isFalse (fun h => JVal.noConfusion h)
  | .str _, .bool _ => isFalse (fun h => JVal.noConfusion h)
  | .str _, .num _ => isFalse (fun h => JVal.noConfusion h)
  | .str a, .str b =>
    match decEq a b with
    | isTrue h => isTrue (h ▸ rfl)
    | isFalse h => isFalse (fun e => h (by cases e; rfl))
  | .str _, .arr _ => isFalse (fun h => JVal.noConfusion h)
  | .str _, .obj _ => isFalse (fun h => JVal.noConfusion h)
  | .arr _, .null => isFalse (fun h => JVal.noConfusion h)
  | .arr _, .bool _ => isFalse (fun h => JVal.noConfusion h)
  | .arr _, .num _ => isFalse (fun h => JVal.noConfusion h)
  | .arr _, .str _ => isFalse (fun h => JVal.noConfusion h)
  | .arr xs, .arr ys =>
    match decEqJList xs ys with
    | isTrue h => isTrue (h ▸ rfl)
    | isFalse h => isFalse (fun e => h (by cases e; rfl))
  | .arr _, .obj _ => isFalse (fun h => JVal.noConfusion h)
  | .obj _, .null => isFalse (fun h => JVal.noConfusion h)
  | .obj _, .bool _ => isFalse (fun h => JVal.noConfusion h)
  | .obj _, .num _ => isFalse (fun h => JVal.noConfusion h)
  | .obj _, .str _ => isFalse (fun h => JVal.noConfusion h)
  | .obj _, .arr _ => isFalse (fun h => JVal.noConfusion h)
  | .obj xs, .obj ys =>
    match decEqJKVs xs ys with
    | isTrue h => isTrue (h ▸ rfl)
    | isFalse h => isFalse (fun e => h (by cases e; rfl))

/-- Decidable equality for JSON arrays. -/
def decEqJList : (xs ys : List JVal) → Decidable (xs = ys)
  | [], [] => isTrue rfl
  | [], _ :: _ => isFalse (fun h => List.noConfusion h)
  | _ :: _, [] => isFalse (fun h => List.noConfusion h)
  | x :: xs, y :: ys =>
    match decEqJVal x y with
    | isTrue h1 =>
      match decEqJList xs ys with
      | isTrue h2 => isTrue (h1 ▸ h2 ▸ rfl)
      | isFalse h2 => isFalse (fun e => h2 (by cases e; rfl))
    | isFalse h1 => isFalse (fun e => h1 (by cases e; rfl))

/-- Decidable equality for JSON dictionary entry lists. -/
def decEqJKVs : (xs ys : List (String × JVal)) → Decidable (xs = ys)
  | [], [] => isTrue rfl
  | [], _ :: _ => isFalse (fun h => List.noConfusion h)
  | _ :: _, [] => isFalse (fun h => List.noConfusion h)
  | (k, v) :: xs, (k2, v2) :: ys =>
    match decEq k k2 with
    | isTrue hk =>
      match decEqJVal v v2 with
      | isTrue h1 =>
        match decEqJKVs xs ys with
        | isTrue h2 => isTrue (hk ▸ h1 ▸ h2 ▸ rfl)
        | isFalse h2 => isFalse (fun e => h2 (by cases e; rfl))
      | isFalse h1 => isFalse (fun e => h1 (by cases e; rfl))
    | isFalse hk => isFalse (fun e => hk (by cases e; rfl))

end

instance : DecidableEq JVal := decEqJVal

/-- Lexicographic comparison of character lists by code point, the order in
which `json.dumps(..., sort_keys=True)` emits dictionary keys. -/
def charsLt : List Char → List Char → Bool
  | [], [] => false
  | [], _ :: _ => true
  | _ :: _, [] => false
  | c :: cs, d :: ds =>
    if c.toNat < d.toNat then true
    else if d.toNat < c.toNat then false
    else charsLt cs ds

/-- Non-strict key order derived from `charsLt`. -/
def keyLe (s t : String) : Bool := !(charsLt t.data s.data)

/-- Insert a dictionary entry into a key-sorted entry list, keeping it
sorted (insertion step of the canonical key sort). -/
def insertKV (p : String × JVal) : List (String × JVal) → List (String × JVal)
  | [] => [p]
  | q :: l => if keyLe p.1 q.1 then p :: q :: l else q :: insertKV p l

/-- Sort a dictionary entry list by key, as `sort_keys=True` does. -/
def sortKVs : List (String × JVal) → List (String × JVal)
  | [] => []
  | p :: l => insertKV p (sortKVs l)

mutual

/-- Canonical form of a JSON value: every dictionary is recursively
key-sorted.  `json.dumps(x, sort_keys=True) == json.dumps(y, sort_keys=True)`
holds exactly when `canon x = canon y` (the serializer is injective on
canonical forms), so the change detector is embedded through `canon`. -/
def canon : JVal → JVal
  | .null => .null
  | .bool b => .bool b
  | .num n => .num n
  | .str s => .str s
  | .arr xs => .arr (canonList xs)
  | .obj kvs => .obj (sortKVs (canonKVs kvs))

/-- Canonicalize every element of a JSON array (list order is preserved:
`sort_keys` sorts only dictionary keys, never lists). -/
def canonList : List JVal → List JVal
  | [] => []
  | x :: xs => canon x :: canonList xs

/-- Canonicalize the values of a dictionary, keeping keys and entry order. -/
def canonKVs : List (String × JVal) → List (String × JVal)
  | [] => []
  | (k, v) :: kvs => (k, canon v) :: canonKVs kvs

end

/-- Test for Python `None`. -/
def isNull : JVal → Bool
  | .null => true
  | _ => false

/-- Embeds `data_changed(old_data, new_data)` from
`python-proxy/BROADCASTER_ARCHITECTURE.md` (Kluczowe Funkcje):

    if old_data is None and new_data is not None:
        return True
    return json.dumps(old_data, sort_keys=True) != json.dumps(new_data, sort_keys=True)

The dumps comparison is represented by equality of canonical forms. -/
def data_changed (old_data new_data : JVal) : Bool :=
  if isNull old_data && !(isNull new_data) then true
  else decide (canon old_data ≠ canon new_data)

/-- Per-dictionary well-formedness: keys are pairwise distinct, as in any
Python dict / decoded JSON object. -/
def keysNodup (l : List (String × JVal)) : Prop :=
  l.Pairwise fun p q => p.1 ≠ q.1

/-- Data categories held in `BROADCASTER_CACHE` (BROADCASTER_ARCHITECTURE.md,
Globalny Stan). -/
inductive Cat where
  | positions
  | balance
  | trades
  deriving DecidableEq

/-- Wire name of a category, the value of the `type` field of a diff
message. -/
def catName : Cat → String
  | .positions => "positions"
  | .balance => "balance"
  | .trades => "trades"

/-- Messages pushed over `/ws/broadcast` (BROADCASTER_ARCHITECTURE.md,
Dokumentacja API): full snapshot on connect, per-category diff updates,
keep-alive pings. -/
inductive Msg where
  | snapshot (positions balance trades : JVal) (timestamp : Nat)
  | diff (category : Cat) (data : JVal) (timestamp : Nat)
  | ping (timestamp : Nat)
  deriving DecidableEq

mutual

/-- JSON serialization, as `json.dumps` (string escaping elided: payload
strings are emitted verbatim between quotes). -/
def dumps : JVal → String
  | .null => "null"
  | .bool true => "true"
  | .bool false => "false"
  | .num n => toString n
  | .str s => "\"" ++ s ++ "\""
  | .arr xs => "[" ++ dumpsList xs ++ "]"
  | .obj kvs => "\x7b" ++ dumpsKVs kvs ++ "\x7d"

/-- Serialize array elements, comma separated. -/
def dumpsList : List JVal → String
  | [] => ""
  | [x] => dumps x
  | x :: xs => dumps x ++ ", " ++ dumpsList xs

/-- Serialize dictionary entries, comma separated. -/
def dumpsKVs : List (String × JVal) → String
  | [] => ""
  | [(k, v)] => "\"" ++ k ++ "\": " ++ dumps v
  | (k, v) :: kvs => "\"" ++ k ++ "\": " ++ dumps v ++ ", " ++ dumpsKVs kvs

end

/-- JSON encoding of a websocket message; a diff message is the dictionary
`\x7b"type": category, "data": value, "timestamp": ts\x7d` sent by
`poll_fast_data` / `broadcast_to_clients`. -/
def msgToJVal : Msg → JVal
  | .snapshot p b t ts =>
    .obj [("type", .str "snapshot"), ("positions", p), ("balance", b),
          ("trades", t), ("timestamp", .num ts)]
  | .diff c d ts =>
    .obj [("type", .str (catName c)), ("data", d), ("timestamp", .num ts)]
  | .ping ts => .obj [("type", .str "ping"), ("timestamp", .num ts)]

/-- Embeds `message_json = json.dumps(message)` from `broadcast_to_clients`. -/
def serializeMsg (m : Msg) : String := dumps (msgToJVal m)

/-- Result of one `broadcast_to_clients` pass: the clients to whom a send
was attempted (in iteration order), the successful deliveries with the
payload each received, the clients collected in `disconnected`, and the
subscriber set after the cleanup loop. -/
structure BroadcastResult where
  attempted : List Nat
  sent : List (Nat × String)
  disconnected : List Nat
  clients : List Nat

/-- Embeds `broadcast_to_clients(message)` from
`python-proxy/BROADCASTER_ARCHITECTURE.md` (Kluczowe Funkcje):

    disconnected = set()
    message_json = json.dumps(message)
    for client in BROADCAST_CLIENTS:
        try:
            await client.send_text(message_json)
        except Exception:
            disconnected.add(client)
    for client in disconnected:
        BROADCAST_CLIENTS.discard(client)

`clients` is the subscriber set at the start of the call; `fails c = true`
means `client.send_text` raises for subscriber `c` during this pass. -/
def broadcast_to_clients (clients : List Nat) (m : Msg) (fails : Nat → Bool) :
    BroadcastResult :=
  let message_json := serializeMsg m
  let loop := clients.foldl
    (fun acc c =>
      if fails c then (acc.1 ++ [c], acc.2.1, acc.2.2 ++ [c])
      else (acc.1 ++ [c], acc.2.1 ++ [(c, message_json)], acc.2.2))
    ([], [], [])
  { attempted := loop.1
    sent := loop.2.1
    disconnected := loop.2.2
    clients := clients.filter fun c => c ∉ loop.2.2 }

/-- Broadcaster global state: `BROADCASTER_CACHE` (one slot per category,
initially `None`, plus `last_update` timestamps) and `BROADCAST_CLIENTS`,
together with each subscriber's log of received messages (`inbox`, oldest
first).  Subscribers are identified by numbers. -/
structure BState where
  cache : Cat → JVal
  last_update : Cat → Nat
  clients : List Nat
  inbox : Nat → List Msg

/-- Initial broadcaster state (BROADCASTER_ARCHITECTURE.md, Globalny Stan):
every category is `None`, timestamps are `0`, no subscribers. -/
def initB : BState :=
  { cache := fun _ => .null
    last_update := fun _ => 0
    clients := []
    inbox := fun _ => [] }

/-- Python `set.add`: insert a subscriber id if not already present. -/
def addClient (id : Nat) (l : List Nat) : List Nat :=
  if id ∈ l then l else l ++ [id]

/-- Embeds the `websocket_broadcast` connect path
(BROADCASTER_ARCHITECTURE.md, Snapshot on Connect / WebSocket flow): accept,
add to `BROADCAST_CLIENTS`, and immediately send one full snapshot carrying
all three cached categories and a timestamp, unconditionally. -/
def connectStep (st : BState) (id ts : Nat) : BState :=
  { st with
    clients := addClient id st.clients
    inbox := fun j =>
      if j = id then
        st.inbox j ++
          [Msg.snapshot (st.cache .positions) (st.cache .balance)
            (st.cache .trades) ts]
      else st.inbox j }

/-- Fan-out of one message to the current subscriber set, mirroring
`broadcast_to_clients`: every current subscriber whose send succeeds
receives the message; subscribers whose send fails receive nothing and are
discarded from the set after the pass. -/
def deliver (st : BState) (m : Msg) (fails : Nat → Bool) : BState :=
  { st with
    clients := st.clients.filter fun c => !fails c
    inbox := fun j =>
      if j ∈ st.clients ∧ fails j = false then st.inbox j ++ [m]
      else st.inbox j }

/-- Embeds one category update of `poll_fast_data` / `poll_trades`
(BROADCASTER_ARCHITECTURE.md, Diff-Based Broadcasting): the freshly fetched
value `v` is compared to the cache with `data_changed`; only on a change are
the cache slot and its `last_update` timestamp written and a diff message
broadcast. -/
def pollTick (st : BState) (cat : Cat) (v : JVal) (ts : Nat) (fails : Nat → Bool) :
    BState :=
  if data_changed (st.cache cat) v then
    deliver
      { st with
        cache := fun c => if c = cat then v else st.cache c
        last_update := fun c => if c = cat then ts else st.last_update c }
      (Msg.diff cat v ts) fails
  else st

/-- External events driving the broadcaster: a subscriber connecting, or a
poll tick completing with a fetched value. -/
inductive Ev where
  | connect (id ts : Nat)
  | poll (cat : Cat) (v : JVal) (ts : Nat) (fails : Nat → Bool)

/-- One step of the broadcaster. -/
def stepB (st : BState) (e : Ev) : BState :=
  match e with
  | .connect id ts => connectStep st id ts
  | .poll cat v ts fails => pollTick st cat v ts fails

/-- Broadcaster state after a sequence of events, from startup. -/
def runB (evs : List Ev) : BState := evs.foldl stepB initB

/-- Test for the snapshot message type. -/
def isSnapshot : Msg → Bool
  | .snapshot _ _ _ _ => true
  | _ => false

/-- Invariant tying subscriber membership to received messages: every
current subscriber has received at least one message, and any subscriber's
first received message is a snapshot. -/
def SnapshotFirst (st : BState) : Prop :=
  ∀ id : Nat,
    (id ∈ st.clients → st.inbox id ≠ []) ∧
    (∀ m, (st.inbox id).head? = some m → isSnapshot m = true)

/-- Dyadic rational `m * 2 ^ e`: the exact value of an IEEE binary64 number.
The bot's Python floats are embedded as dyadics with the rounding below. -/
structure Dy where
  m : Int
  e : Int
  deriving DecidableEq

/-- Exact rational value of a dyadic. -/
def Dy.toQ (x : Dy) : ℚ :=
  if 0 ≤ x.e then (x.m : ℚ) * 2 ^ x.e.toNat else (x.m : ℚ) / 2 ^ (-x.e).toNat

/-- Fuel-driven floor of the base-2 logarithm (fuel `n` always suffices). -/
def log2fuel : Nat → Nat → Nat
  | 0, _ => 0
  | fuel + 1, n => if n ≤ 1 then 0 else log2fuel fuel (n / 2) + 1

/-- Bit length of a natural number. -/
def natBits (n : Nat) : Nat := if n = 0 then 0 else log2fuel n n + 1

/-- Round a dyadic to 53 significant bits, half to even: the IEEE binary64
rounding of an exact intermediate result (normal range; the magnitudes in
this development never overflow or go subnormal). -/
def roundDy (x : Dy) : Dy :=
  let n := x.m.natAbs
  let k := natBits n
  if k ≤ 53 then x
  else
    let s := k - 53
    let q := n / 2 ^ s
    let r := n % 2 ^ s
    let half := 2 ^ (s - 1)
    let q2 := if r < half then q else if half < r then q + 1 else if q % 2 = 0 then q else q + 1
    ⟨if x.m < 0 then -(q2 : Int) else (q2 : Int), x.e + (s : Int)⟩

/-- Exact sum of two dyadics (exponent alignment). -/
def dyAdd (a b : Dy) : Dy :=
  if a.e ≤ b.e then ⟨a.m + b.m * 2 ^ (b.e - a.e).toNat, a.e⟩
  else ⟨a.m * 2 ^ (a.e - b.e).toNat + b.m, b.e⟩

/-- IEEE binary64 addition. -/
def fadd (a b : Dy) : Dy := roundDy (dyAdd a b)

/-- IEEE binary64 subtraction. -/
def fsub (a b : Dy) : Dy := roundDy (dyAdd a ⟨-b.m, b.e⟩)

/-- IEEE binary64 multiplication. -/
def fmul (a b : Dy) : Dy := roundDy ⟨a.m * b.m, a.e + b.e⟩

/-- Absolute value (`abs`, exact on floats). -/
def dyAbs (a : Dy) : Dy := ⟨if a.m < 0 then -a.m else a.m, a.e⟩

/-- Decides `2 ^ p ≤ n / d` for positive naturals. -/
def ratPow2Le (p : Int) (n d : Nat) : Bool :=
  if 0 ≤ p then d * 2 ^ p.toNat ≤ n else d ≤ n * 2 ^ (-p).toNat

/-- Floor of the base-2 logarithm of `n / d` (both positive). -/
def floorLog2Rat (n d : Nat) : Int :=
  let d0 : Int := (natBits n : Int) - (natBits d : Int)
  if ratPow2Le d0 n d then d0 else d0 - 1

/-- Round the positive rational `n / d` to the nearest binary64 value,
half to even. -/
def roundRatPos (n d : Nat) : Dy :=
  let e := floorLog2Rat n d - 52
  let p := if 0 ≤ e then (n, d * 2 ^ e.toNat) else (n * 2 ^ (-e).toNat, d)
  let q := p.1 / p.2
  let r := p.1 % p.2
  let m := if 2 * r < p.2 then q else if p.2 < 2 * r then q + 1 else if q % 2 = 0 then q else q + 1
  ⟨(m : Int), e⟩

/-- IEEE binary64 division. -/
def fdiv (a b : Dy) : Dy :=
  if a.m = 0 then ⟨0, 0⟩
  else
    let sign := decide (a.m < 0) != decide (b.m < 0)
    let delta := a.e - b.e
    let p := if 0 ≤ delta then (a.m.natAbs * 2 ^ delta.toNat, b.m.natAbs)
             else (a.m.natAbs, b.m.natAbs * 2 ^ (-delta).toNat)
    let r := roundRatPos p.1 p.2
    ⟨if sign then -r.m else r.m, r.e⟩

/-- Strict order on dyadics (IEEE `<` on the represented values). -/
def dyLt (a b : Dy) : Bool :=
  if a.e ≤ b.e then a.m < b.m * 2 ^ (b.e - a.e).toNat
  else a.m * 2 ^ (a.e - b.e).toNat < b.m

/-- Value of a positive Python float literal written as the decimal
`n / d`: the nearest binary64 value. -/
def dyLit (n d : Nat) : Dy := roundRatPos n d

/-- Embeds `calculate_quotes(price, spread)` from `bot/simple_mm_bot.py` as
documented in the bot README (Quote Calculation):

    bid_price = price * (1 - spread)
    ask_price = price * (1 + spread)

evaluated in Python float (IEEE binary64) arithmetic. -/
def calculate_quotes (price spread : Dy) : Dy × Dy :=
  (fmul price (fsub ⟨1, 0⟩ spread), fmul price (fadd ⟨1, 0⟩ spread))

/-- Embeds `price_change = abs(current_price - last_price) / last_price`
from the bot refresh trigger (bot README, Refresh Trigger), in float
arithmetic. -/
def price_change (current_price last_price : Dy) : Dy :=
  fdiv (dyAbs (fsub current_price last_price)) last_price

/-- Embeds the trigger condition `price_change > price_move_threshold`
guarding `refresh_orders()`. -/
def needs_refresh (current_price last_price threshold : Dy) : Bool :=
  dyLt threshold (price_change current_price last_price)

/-- The same refresh trigger evaluated in exact rational arithmetic; used
to state that the comparison is strict (a relative move of exactly the
threshold does not requote). -/
def needs_refreshExact (current_price last_price threshold : ℚ) : Bool :=
  decide (|current_price - last_price| / last_price > threshold)

/-- Scaled integer order parameters fed to the StarkEx Pedersen hash chain
(SIGNING_GUIDE, Order Hash Generation). -/
structure OrderParams where
  market_id : Int
  side : Int
  price_scaled : Int
  size_scaled : Int
  nonce : Int
  time_in_force : Int
  reduce_only : Int

/-- Embeds `tif_map = {"POST_ONLY": 3, "GTC": 0, "IOC": 1, "FOK": 2}` with
`tif_map.get(time_in_force, 0)` (SIGNING_GUIDE, Parameters). -/
def tif_to_int (t : String) : Int :=
  if t = "POST_ONLY" then 3
  else if t = "GTC" then 0
  else if t = "IOC" then 1
  else if t = "FOK" then 2
  else 0

/-- Embeds `side_int = 0 if side == "BUY" else 1` (SIGNING_GUIDE). -/
def side_to_int (side : String) : Int := if side = "BUY" then 0 else 1

/-- Embeds the Pedersen hash chain from `CHANGELOG.md` (Hash Generation) /
SIGNING_GUIDE, with `pedersen_hash` abstract:

    order_hash = pedersen_hash(market_id, side)
    order_hash = pedersen_hash(order_hash, price_scaled)
    order_hash = pedersen_hash(order_hash, size_scaled)
    order_hash = pedersen_hash(order_hash, nonce)
    order_hash = pedersen_hash(order_hash, time_in_force)
    order_hash = pedersen_hash(order_hash, reduce_only) -/
def generate_order_hash (ped : Int → Int → Int) (o : OrderParams) : Int :=
  ped (ped (ped (ped (ped (ped o.market_id o.side) o.price_scaled)
    o.size_scaled) o.nonce) o.time_in_force) o.reduce_only

/-- Outcome of one `create_order` attempt. -/
inductive CreateOrderResult where
  | ok (ack : Int)
  | signingError (msg : String)
  deriving DecidableEq

/-- A create-order attempt together with the number of network calls made
to the exchange order endpoint during the attempt. -/
structure CreateOrderTrace where
  result : CreateOrderResult
  network_calls : Nat
  deriving DecidableEq

/-- Modelled from the spec: `bot/order_manager.py` itself is not shipped in
the repository; `CHANGELOG.md` (Signature Verification) shows its gate

    is_valid = verify(msg_hash=order_hash, r=r, s=s, public_key=public_key_int)
    if not is_valid:
        raise ValueError("Signature verification failed")

run after signing and before the order is submitted to the exchange
(SIGNING_GUIDE: local verification before sending).  The
`starkware.crypto.signature` primitives `sign`/`verify` are abstract
parameters; `submit` is the network call to the order endpoint, whose
invocations `create_order` counts. -/
def create_order (ped : Int → Int → Int) (sign : Int → Int × Int)
    (verify : Int → Int × Int → Int → Bool) (public_key : Int)
    (submit : Int → Int) (o : OrderParams) : CreateOrderTrace :=
  let order_hash := generate_order_hash ped o
  let rs := sign order_hash
  if verify order_hash rs public_key then
    { result := .ok (submit order_hash), network_calls := 1 }
  else
    { result := .signingError "Signature verification failed", network_calls := 0 }

/-- Position payload consumed by the `setAllPositions` updater in
`Index.tsx`; numeric string fields are modelled already decoded (the
updater itself applies `parseFloat`). -/
structure PosIn where
  market : String
  side : String
  leverage : String
  size : String
  value : ℚ
  openPrice : ℚ
  liquidationPrice : ℚ
  midPriceUnrealisedPnl : ℚ
  realisedPnl : ℚ
  margin : ℚ
  status : String
  createdAt : Nat
  updatedAt : Nat
  deriving DecidableEq

/-- Entry stored in the `allPositions` map (the `positionData` object built
by the updater). -/
structure PosData where
  market : String
  side : String
  leverage : String
  size : String
  value : ℚ
  openPrice : ℚ
  markPrice : ℚ
  liquidationPrice : ℚ
  unrealisedPnl : ℚ
  realisedPnl : ℚ
  margin : ℚ
  status : String
  createdAt : Nat
  updatedAt : Nat
  deriving DecidableEq

/-- JavaScript `Map.set`: overwrite the value at an existing key in place,
otherwise append the entry (insertion order preserved). -/
def mapSet {α : Type} (m : List (String × α)) (k : String) (v : α) :
    List (String × α) :=
  match m with
  | [] => [(k, v)]
  | (k2, v2) :: t => if k2 = k then (k, v) :: t else (k2, v2) :: mapSet t k v

/-- JavaScript `Map.get`. -/
def mapGet {α : Type} (m : List (String × α)) (k : String) : Option α :=
  match m with
  | [] => none
  | (k2, v2) :: t => if k2 = k then some v2 else mapGet t k

/-- Mark-price resolution of the updater: use the public websocket price if
one matches; otherwise keep the previous map entry's positive mark price;
otherwise `0`. -/
def resolveMarkPrice (publicPrice : Option ℚ) (existing : Option PosData) : ℚ :=
  match publicPrice with
  | some p => p
  | none =>
    match existing with
    | some e => if 0 < e.markPrice then e.markPrice else 0
    | none => 0

/-- The `positionData` object the updater writes into the map. -/
def toPosData (pos : PosIn) (markPrice : ℚ) : PosData :=
  { market := pos.market
    side := pos.side
    leverage := pos.leverage
    size := pos.size
    value := pos.value
    openPrice := pos.openPrice
    markPrice := markPrice
    liquidationPrice := pos.liquidationPrice
    unrealisedPnl := pos.midPriceUnrealisedPnl
    realisedPnl := pos.realisedPnl
    margin := pos.margin
    status := pos.status
    createdAt := pos.createdAt
    updatedAt := pos.updatedAt }

/-- Embeds the `setAllPositions` updater of `Index.tsx` (Process REST API
data): starting from a copy of the previous map, a poll reporting zero
positions clears the map entirely; otherwise every reported position with
`status === 'OPENED'` is written into the map keyed by its market, with the
mark price resolved against the public price feed (`pub`) and the existing
map entry; positions with any other status, and previous entries whose
market is not in the poll, are left untouched. -/
def updateAllPositions (prev : List (String × PosData)) (positions : List PosIn)
    (pub : String → Option ℚ) : List (String × PosData) :=
  if positions.isEmpty then []
  else
    positions.foldl
      (fun updated pos =>
        if pos.status = "OPENED" then
          let mp := resolveMarkPrice (pub pos.market) (mapGet updated pos.market)
          mapSet updated pos.market (toPosData pos mp)
        else updated)
      prev

/-- Tracking record of one bot order (bot README, Active Orders Tracking:
`ACTIVE_BOT_ORDERS[order_id] = {"side": ..., "price": ..., "size": ...}`). -/
structure OrderInfo where
  side : String
  price : ℚ
  size : String
  deriving DecidableEq

/-- Result of stopping the bot: the cancel attempts issued (order id and
that attempt's outcome, in iteration order), and the bot state left
behind. -/
structure StopResult where
  attempts : List (String × Bool)
  active_bot_orders : List (String × OrderInfo)
  running : Bool

/-- Modelled from the spec: `bot/simple_mm_bot.py` is not shipped in the
repository; per the bot README ("Bot anuluje wszystkie zlecenia przy stop")
and spec section 4.6, stopping the engine issues one cancel attempt per
entry of `ACTIVE_BOT_ORDERS` — each attempt independent of the others'
outcomes (`cancelOk` gives each attempt's outcome) — and clears the
tracking dict before the transition to stopped completes, regardless of
the outcomes. -/
def stop_bot (orders : List (String × OrderInfo)) (cancelOk : String → Bool) :
    StopResult :=
  { attempts := orders.foldl (fun acc kv => acc ++ [(kv.1, cancelOk kv.1)]) []
    active_bot_orders := []
    running := false }

/-- Balance payload fields read by `useExtendedWebSocket`; `extra` stands
for all remaining payload fields, which the extraction drops. -/
structure BalObj where
  marginRatio : Option String
  equity : Option String
  availableForTrade : Option String
  availableForWithdrawal : Option String
  extra : List (String × String)
  deriving DecidableEq

/-- Shape of `message.balance` / `message.data`: either a wrapper object
with a nested `balance` field, or the balance object directly (the hook
reads `message.balance.balance ?? message.balance`). -/
inductive BalWrap where
  | wrapped (b : BalObj)
  | flat (b : BalObj)
  deriving DecidableEq

/-- Embeds `const bal = message.balance.balance ?? message.balance`. -/
def unwrapBal : BalWrap → BalObj
  | .wrapped b => b
  | .flat b => b

/-- The four critical balance fields kept by the hook
(`useExtendedWebSocket.ts`, criticalBalance). -/
structure CriticalBalance where
  marginRatio : Option String
  equity : Option String
  availableForTrade : Option String
  availableForWithdrawal : Option String
  deriving DecidableEq

/-- Embeds the `criticalBalance` extraction: exactly the four fields
`marginRatio`, `equity`, `availableForTrade`, `availableForWithdrawal`,
everything else dropped. -/
def criticalOf (b : BalObj) : CriticalBalance :=
  { marginRatio := b.marginRatio
    equity := b.equity
    availableForTrade := b.availableForTrade
    availableForWithdrawal := b.availableForWithdrawal }

/-- Parsed websocket message as consumed by the hook's `onmessage`
handler. -/
structure InMsg where
  mtype : String
  data : Option BalWrap
  balance : Option BalWrap
  timestamp : Option Nat
  deriving DecidableEq

/-- State held by `useExtendedWebSocket`: the `isConnected`, `lastMessage`
and `error` hooks plus `extendedData` (critical balance fields and
`lastUpdate.balance`). -/
structure HookState where
  isConnected : Bool
  lastMessage : Option InMsg
  error : Option String
  edBalance : Option CriticalBalance
  edLastUpdate : Option String
  deriving DecidableEq

/-- Hook state before any message arrives. -/
def initHook : HookState :=
  { isConnected := false
    lastMessage := none
    error := none
    edBalance := none
    edLastUpdate := none }

/-- Embeds the `ws.onmessage` handler of `useExtendedWebSocket.ts`
(src/unnamed/part_005, lines 78-150): the `snapshot` branch sets
`isConnected`/`error` and, when a balance payload is present, replaces
`extendedData` with the critical fields and a fresh `lastUpdate.balance`,
then returns; the `ping` branch returns untouched; the `balance` branch
(when `message.data` is present) merges the critical fields into
`extendedData` and records the message in `lastMessage`; the `positions`
branch only logs; the `trades` branch records the message in
`lastMessage`.  `now` is the formatted current time. -/
def handleMessage (st : HookState) (msg : InMsg) (now : String) : HookState :=
  if msg.mtype = "snapshot" then
    let st1 := { st with isConnected := true, error := none }
    match msg.balance with
    | some bw =>
      { st1 with
        edBalance := some (criticalOf (unwrapBal bw))
        edLastUpdate := some now }
    | none => st1
  else if msg.mtype = "ping" then st
  else
    let st1 :=
      if msg.mtype = "balance" then
        match msg.data with
        | some bw =>
          { st with
            edBalance := some (criticalOf (unwrapBal bw))
            edLastUpdate := some now
            lastMessage := some msg }
        | none => st
      else st
    if msg.mtype = "trades" then { st1 with lastMessage := some msg } else st1

/-- Demonstration balance payload (four critical fields plus one extra
field that the extraction must drop). -/
def demoBal : BalObj :=
  { marginRatio := some "0.1"
    equity := some "1000"
    availableForTrade := some "900"
    availableForWithdrawal := some "800"
    extra := [("exposure", "5")] }

/-- Demonstration balance diff message. -/
def demoBalMsg : InMsg :=
  { mtype := "balance", data := some (.flat demoBal), balance := none
    timestamp := none }

theorem char_toNat_inj {c d : Char} (h : c.toNat = d.toNat) : c = d := by
  have hv : c.val = d.val := UInt32.toNat.inj h
  cases c; cases d; simp_all

theorem charsLt_asymm : ∀ a b, charsLt a b = true → charsLt b a = false
  | [], [] => by simp [charsLt]
  | [], _ :: _ => by simp [charsLt]
  | _ :: _, [] => by simp [charsLt]
  | c :: cs, d :: ds => by
    simp only [charsLt]
    by_cases h1 : c.toNat < d.toNat
    · have h2 : ¬ d.toNat < c.toNat := Nat.lt_asymm h1
      simp [h1, h2]
    · by_cases h2 : d.toNat < c.toNat
      · simp [h1, h2]
      · simp only [h1, h2, if_false]
        exact charsLt_asymm cs ds

theorem charsLt_conn : ∀ a b, charsLt a b = false → charsLt b a = false → a = b
  | [], [], _, _ => rfl
  | [], _ :: _, h, _ => by simp [charsLt] at h
  | _ :: _, [], _, h2 => by simp [charsLt] at h2
  | c :: cs, d :: ds, h, h2 => by
    by_cases h1 : c.toNat < d.toNat
    · simp [charsLt, h1] at h
    · by_cases h3 : d.toNat < c.toNat
      · simp [charsLt, h3] at h2
      · have hcd : c = d :=
          char_toNat_inj (Nat.le_antisymm (Nat.not_lt.mp h3) (Nat.not_lt.mp h1))
        have htl : cs = ds := by
          refine charsLt_conn cs ds ?_ ?_
          · simpa [charsLt, h1, h3] using h
          · simpa [charsLt, h1, h3, hcd] using h2
        rw [hcd, htl]

theorem charsLt_cotrans : ∀ a b c, charsLt a c = true → charsLt a b = true ∨ charsLt b c = true
  | [], [], [], h => by simp [charsLt] at h
  | [], [], _ :: _, h => Or.inr h
  | [], _ :: _, _, _ => Or.inl (by simp [charsLt])
  | _ :: _, _, [], h => by simp [charsLt] at h
  | _ :: _, [], _ :: _, _ => Or.inr (by simp [charsLt])
  | x :: xs, y :: ys, z :: zs, h => by
    by_cases hxy : x.toNat < y.toNat
    · exact Or.inl (by simp [charsLt, hxy])
    · by_cases hyx : y.toNat < x.toNat
      · -- y < x; from the hypothesis either x < z or x = z, so y < z either way
        right
        by_cases hxz : x.toNat < z.toNat
        · simp [charsLt, Nat.lt_trans hyx hxz]
        · by_cases hzx : z.toNat < x.toNat
          · simp [charsLt, hxz, hzx] at h
          · have hx : x.toNat = z.toNat := Nat.le_antisymm (Nat.not_lt.mp hzx) (Nat.not_lt.mp hxz)
            simp [charsLt, hx ▸ hyx]
      · have hxy2 : x = y := char_toNat_inj (Nat.le_antisymm (Nat.not_lt.mp hyx) (Nat.not_lt.mp hxy))
        subst hxy2
        by_cases hxz : x.toNat < z.toNat
        · exact Or.inr (by simp [charsLt, hxz])
        · by_cases hzx : z.toNat < x.toNat
          · simp [charsLt, hxz, hzx] at h
          · have htl : charsLt xs zs = true := by simpa [charsLt, hxz, hzx] using h
            rcases charsLt_cotrans xs ys zs htl with h1 | h1
            · exact Or.inl (by simp [charsLt, h1])
            · exact Or.inr (by simp [charsLt, hxz, hzx, h1])

theorem keyLe_of_not (s t : String) (h : keyLe s t = false) : keyLe t s = true := by
  have h2 : charsLt t.data s.data = true := by
    revert h
    simp [keyLe]
  simp [keyLe, charsLt_asymm _ _ h2]

theorem keyLe_antisymm {s t : String} (h1 : keyLe s t = true) (h2 : keyLe t s = true) :
    s = t := by
  simp only [keyLe, Bool.not_eq_true'] at h1 h2
  have hd : s.data = t.data := charsLt_conn _ _ h2 h1
  cases s; cases t; simp_all

theorem keyLe_trans {s t u : String} (h1 : keyLe s t = true) (h2 : keyLe t u = true) :
    keyLe s u = true := by
  simp only [keyLe, Bool.not_eq_true'] at h1 h2 ⊢
  by_contra hc
  rcases charsLt_cotrans u.data t.data s.data (Bool.not_eq_false _ ▸ hc) with h | h
  · exact absurd h (by simp [h2])
  · exact absurd h (by simp [h1])

theorem insertKV_comm (p q : String × JVal) (hne : p.1 ≠ q.1) :
    ∀ l, insertKV p (insertKV q l) = insertKV q (insertKV p l)
  | [] => by
    by_cases hpq : keyLe p.1 q.1
    · have hqp : keyLe q.1 p.1 = false := by
        by_contra hc
        exact hne (keyLe_antisymm hpq (Bool.not_eq_false _ ▸ hc))
      simp [insertKV, hpq, hqp]
    · have hqp := keyLe_of_not _ _ (Bool.not_eq_true _ ▸ hpq)
      simp [insertKV, hpq, hqp]
  | r :: t => by
    by_cases hq : keyLe q.1 r.1
    · by_cases hpq : keyLe p.1 q.1
      · have hp : keyLe p.1 r.1 = true := keyLe_trans hpq hq
        have hqp : keyLe q.1 p.1 = false := by
          by_contra hc
          exact hne (keyLe_antisymm hpq (Bool.not_eq_false _ ▸ hc))
        simp [insertKV, hq, hpq, hp, hqp]
      · have hqp := keyLe_of_not _ _ (Bool.not_eq_true _ ▸ hpq)
        by_cases hp : keyLe p.1 r.1
        · simp [insertKV, hq, hpq, hp, hqp]
        · simp [insertKV, hq, hpq, hp, hqp]
    · by_cases hp : keyLe p.1 r.1
      · have hqp : keyLe q.1 p.1 = false := by
          by_contra hc
          exact absurd (keyLe_trans (Bool.not_eq_false _ ▸ hc) hp) (by simp [hq])
        simp [insertKV, hq, hp, hqp]
      · have hq2 : keyLe q.1 r.1 = false := by simpa using hq
        have hp2 : keyLe p.1 r.1 = false := by simpa using hp
        simp [insertKV, hq2, hp2, insertKV_comm p q hne t]

theorem sortKVs_eq_of_perm {l1 l2 : List (String × JVal)} (hp : l1.Perm l2)
    (hn : keysNodup l1) : sortKVs l1 = sortKVs l2 := by
  induction hp with
  | nil => rfl
  | cons x _ ih =>
    rcases List.pairwise_cons.mp hn with ⟨_, hn2⟩
    simp [sortKVs, ih hn2]
  | swap x y l =>
    rcases List.pairwise_cons.mp hn with ⟨hy, _⟩
    simp [sortKVs, insertKV_comm y x (hy x (by simp)) (sortKVs l)]
  | trans h1 _ ih1 ih2 =>
    refine (ih1 hn).trans (ih2 ?_)
    exact (h1.pairwise_iff fun hab e => hab e.symm).mp hn

theorem canonKVs_eq_map (l : List (String × JVal)) :
    canonKVs l = l.map fun p => (p.1, canon p.2) := by
  induction l with
  | nil => rfl
  | cons p t ih => cases p; simp [canonKVs, ih]

theorem canon_obj_eq_of_perm {l1 l2 : List (String × JVal)} (hp : l1.Perm l2)
    (hn : keysNodup l1) : canon (.obj l1) = canon (.obj l2) := by
  have hpc : (canonKVs l1).Perm (canonKVs l2) := by
    rw [canonKVs_eq_map, canonKVs_eq_map]
    exact hp.map _
  have hnc : keysNodup (canonKVs l1) := by
    rw [canonKVs_eq_map]
    exact (List.pairwise_map).mpr hn
  simp [canon, sortKVs_eq_of_perm hpc hnc]

theorem isNull_eq_false {v : JVal} (h : v ≠ .null) : isNull v = false := by
  cases v <;> simp_all [isNull]

/-- `data_changed` reports a change whenever the cached value is `None` and
the fetched one is not. -/
theorem data_changed_of_null {v : JVal} (h : v ≠ .null) :
    data_changed .null v = true := by
  simp [data_changed, isNull, isNull_eq_false h]

/-- `data_changed` reports no change for payloads that are equal up to the
order of dictionary entries (provided keys are not duplicated, as in any
decoded JSON object). -/
theorem data_changed_key_reorder {l1 l2 : List (String × JVal)} (hp : l1.Perm l2)
    (hn : keysNodup l1) : data_changed (.obj l1) (.obj l2) = false := by
  simp [data_changed, isNull, canon_obj_eq_of_perm hp hn]

/-- `data_changed` is list-order-sensitive: swapping two canonically distinct
elements of an array is reported as a change, whatever the category. -/
theorem data_changed_arr_swap {a b : JVal} (t : List JVal)
    (h : canon a ≠ canon b) :
    data_changed (.arr (a :: b :: t)) (.arr (b :: a :: t)) = true := by
  have harr : canon (.arr (a :: b :: t)) ≠ canon (.arr (b :: a :: t)) := by
    simp only [canon, canonList]
    intro he
    simp only [JVal.arr.injEq, List.cons.injEq] at he
    exact h he.1
  simp [data_changed, isNull, harr]

theorem broadcast_loop_spec (fails : Nat → Bool) (mj : String) :
    ∀ (clients : List Nat) (a : List Nat) (s : List (Nat × String)) (d : List Nat),
      clients.foldl
        (fun acc c =>
          if fails c then (acc.1 ++ [c], acc.2.1, acc.2.2 ++ [c])
          else (acc.1 ++ [c], acc.2.1 ++ [(c, mj)], acc.2.2))
        (a, s, d) =
      (a ++ clients,
       s ++ (clients.filter fun c => !fails c).map (fun c => (c, mj)),
       d ++ clients.filter fun c => fails c)
  | [], a, s, d => by simp
  | c :: cs, a, s, d => by
    by_cases hc : fails c
    · simp [List.foldl_cons, hc, broadcast_loop_spec fails mj cs]
    · simp [List.foldl_cons, hc, broadcast_loop_spec fails mj cs]

theorem head?_append_singleton {α : Type} [DecidableEq α] (l : List α) (x : α) :
    (l ++ [x]).head? = if l = [] then some x else l.head? := by
  cases l <;> simp

theorem snapshotFirst_init : SnapshotFirst initB := by
  intro id
  constructor
  · intro h
    simp [initB] at h
  · intro m hm
    simp [initB] at hm

theorem snapshotFirst_step (st : BState) (e : Ev) (h : SnapshotFirst st) :
    SnapshotFirst (stepB st e) := by
  cases e with
  | connect id ts =>
    intro j
    rcases h j with ⟨h1, h2⟩
    by_cases hj : j = id
    · subst hj
      constructor
      · intro _
        simp [stepB, connectStep, head?_append_singleton]
      · intro m hm
        simp only [stepB, connectStep, if_pos rfl, head?_append_singleton] at hm
        by_cases hnil : st.inbox j = []
        · simp [hnil] at hm
          simp [← hm, isSnapshot]
        · simp [hnil] at hm
          exact h2 m hm
    · constructor
      · intro hmem
        have : j ∈ st.clients := by
          simp only [stepB, connectStep, addClient] at hmem
          by_cases hin : id ∈ st.clients
          · simpa [hin] using hmem
          · simp [hin] at hmem
            rcases hmem with hmem | hmem
            · exact hmem
            · exact absurd hmem hj
        simpa [stepB, connectStep, hj] using h1 this
      · intro m hm
        simp only [stepB, connectStep, if_neg hj] at hm
        exact h2 m hm
  | poll cat v ts fails =>
    intro j
    rcases h j with ⟨h1, h2⟩
    simp only [stepB, pollTick]
    by_cases hch : data_changed (st.cache cat) v = true
    · rw [if_pos hch]
      constructor
      · intro hmem
        simp only [deliver, List.mem_filter] at hmem
        have hin : j ∈ st.clients := hmem.1
        by_cases hf : j ∈ st.clients ∧ fails j = false
        · simp [deliver, hf, head?_append_singleton]
        · simpa [deliver, hf] using h1 hin
      · intro m hm
        by_cases hf : j ∈ st.clients ∧ fails j = false
        · simp only [deliver, if_pos hf, head?_append_singleton] at hm
          by_cases hnil : st.inbox j = []
          · exact absurd hnil (h1 hf.1)
          · simp [hnil] at hm
            exact h2 m hm
        · simp only [deliver, if_neg hf] at hm
          exact h2 m hm
    · rw [if_neg hch]
      exact ⟨h1, h2⟩

theorem snapshotFirst_run (evs : List Ev) : SnapshotFirst (runB evs) := by
  suffices h : ∀ st, SnapshotFirst st → SnapshotFirst (evs.foldl stepB st) from
    h initB snapshotFirst_init
  induction evs with
  | nil => exact fun st h => h
  | cons e t ih => exact fun st h => ih _ (snapshotFirst_step st e h)

/-- C1: over any broadcaster state, a poll tick for a category bumps
`last_update[c]` exactly when `data_changed` reports that the freshly
fetched value differs from the cached value of that category (and bumps no
other category); in particular a payload that differs from the cache only
in dictionary key ordering never bumps the timestamp.  The clock hypothesis
says the tick's timestamp is fresh. -/
theorem claim_C1_lastUpdate_bump_iff_changed
    (st : BState) (cat : Cat) (v : JVal) (ts : Nat) (fails : Nat → Bool)
    (hclock : st.last_update cat ≠ ts) :
    (∀ c : Cat,
        (pollTick st cat v ts fails).last_update c ≠ st.last_update c ↔
          c = cat ∧ data_changed (st.cache cat) v = true) ∧
    (∀ l1 l2 : List (String × JVal), st.cache cat = .obj l1 → v = .obj l2 →
        l1.Perm l2 → keysNodup l1 →
        (pollTick st cat v ts fails).last_update cat = st.last_update cat) := by
  constructor
  · intro c
    unfold pollTick
    by_cases hch : data_changed (st.cache cat) v = true
    · rw [if_pos hch]
      by_cases hc : c = cat
      · subst hc
        simp only [deliver, ne_eq]
        simp [hch]
        exact fun h => hclock h.symm
      · simp [deliver, hc, hch]
    · rw [if_neg hch]
      simp [hch]
  · intro l1 l2 hc hv hp hn
    have hch : data_changed (st.cache cat) v = false := by
      rw [hc, hv]
      exact data_changed_key_reorder hp hn
    unfold pollTick
    rw [hch]
    simp

/-- Witness for C1 at a concrete state and payload. -/
theorem claim_C1_witness :
    (∀ c : Cat,
        (pollTick initB .balance (.num 1) 5 (fun _ => false)).last_update c ≠
            initB.last_update c ↔
          c = .balance ∧ data_changed (initB.cache .balance) (.num 1) = true) ∧
    (∀ l1 l2 : List (String × JVal), initB.cache .balance = .obj l1 →
        JVal.num 1 = .obj l2 → l1.Perm l2 → keysNodup l1 →
        (pollTick initB .balance (.num 1) 5 (fun _ => false)).last_update .balance =
          initB.last_update .balance) :=
  claim_C1_lastUpdate_bump_iff_changed initB .balance (.num 1) 5 (fun _ => false)
    (by decide)

/-- C2 counterexample: two positions lists containing the same positions
keyed by market, in swapped list order, ARE reported as changed by
`data_changed` (json.dumps sorts dictionary keys, never lists), refuting
the claimed order-independence for the positions category. -/
theorem claim_C2_counterexample :
    data_changed
      (.arr [.obj [("market", .str "BTC-USD")], .obj [("market", .str "ETH-USD")]])
      (.arr [.obj [("market", .str "ETH-USD")], .obj [("market", .str "BTC-USD")]]) =
      true := by decide

/-- C2 (amended): `data_changed` computes structural deep equality that is
dictionary-key-order-independent for every category (no false positives
from field ordering, keys being distinct as in any decoded JSON object) but
list-order-sensitive for both positions and trades (swapping two
canonically distinct list elements is reported as a change); `None` to
non-`None` is always a change, and identical payloads never are. -/
theorem claim_C2_hasChanged_canonical :
    (∀ l1 l2 : List (String × JVal), l1.Perm l2 → keysNodup l1 →
        data_changed (.obj l1) (.obj l2) = false) ∧
    (∀ (a b : JVal) (t : List JVal), canon a ≠ canon b →
        data_changed (.arr (a :: b :: t)) (.arr (b :: a :: t)) = true) ∧
    (∀ v : JVal, v ≠ .null → data_changed .null v = true) ∧
    (∀ v : JVal, data_changed v v = false) := by
  refine ⟨fun l1 l2 hp hn => data_changed_key_reorder hp hn,
    fun a b t h => data_changed_arr_swap t h,
    fun v h => data_changed_of_null h,
    fun v => ?_⟩
  simp [data_changed]

/-- Witness for C2 at concrete payloads. -/
theorem claim_C2_witness :
    data_changed (.obj [("a", .num 1), ("b", .num 2)])
        (.obj [("b", .num 2), ("a", .num 1)]) = false ∧
    data_changed (.arr [.num 1, .num 2]) (.arr [.num 2, .num 1]) = true ∧
    data_changed .null (.num 7) = true :=
  ⟨claim_C2_hasChanged_canonical.1 _ _
      (List.Perm.swap ("b", JVal.num 2) ("a", JVal.num 1) [])
      (by simp [keysNodup]),
    claim_C2_hasChanged_canonical.2.1 (JVal.num 1) (JVal.num 2) [] (by decide),
    claim_C2_hasChanged_canonical.2.2.1 (JVal.num 7) (by decide)⟩

/-- C3: a connecting subscriber is added to the set and immediately sent a
single snapshot message carrying all three cached categories and the
timestamp, unconditionally; and over every event trace, any subscriber's
first received message is a snapshot (so no diff ever precedes it). -/
theorem claim_C3_snapshot_first :
    (∀ (evs : List Ev) (id ts : Nat),
        id ∈ (connectStep (runB evs) id ts).clients ∧
        ((connectStep (runB evs) id ts).inbox id).getLast? =
          some (Msg.snapshot ((runB evs).cache .positions)
            ((runB evs).cache .balance) ((runB evs).cache .trades) ts)) ∧
    (∀ (evs : List Ev) (id : Nat),
        (runB evs).inbox id ≠ [] →
        ∃ m, ((runB evs).inbox id).head? = some m ∧ isSnapshot m = true) := by
  constructor
  · intro evs id ts
    constructor
    · simp only [connectStep, addClient]
      by_cases h : id ∈ (runB evs).clients
      · simp [h]
      · simp [h]
    · simp [connectStep]
  · intro evs id hne
    rcases snapshotFirst_run evs id with ⟨_, h2⟩
    cases hh : ((runB evs).inbox id).head? with
    | none => exact absurd (List.head?_eq_none_iff.mp hh) hne
    | some m => exact ⟨m, rfl, h2 m hh⟩

/-- Witness for C3 on a concrete trace. -/
theorem claim_C3_witness :
    ∃ m, ((runB [Ev.connect 7 5]).inbox 7).head? = some m ∧ isSnapshot m = true :=
  claim_C3_snapshot_first.2 [Ev.connect 7 5] 7 (by decide)

/-- C4: one `broadcast_to_clients` pass attempts delivery to exactly the
subscribers present at the start of the call (in order, none skipped and
none retried), every successful delivery carries the one serialized
payload, the set mutation happens only after the pass, and the resulting
subscriber set is the original minus exactly the failed subscribers; no
failure escapes the call. -/
theorem claim_C4_broadcast_pass (clients : List Nat) (m : Msg) (fails : Nat → Bool) :
    (broadcast_to_clients clients m fails).attempted = clients ∧
    (broadcast_to_clients clients m fails).sent =
      (clients.filter fun c => !fails c).map (fun c => (c, serializeMsg m)) ∧
    (broadcast_to_clients clients m fails).disconnected =
      clients.filter (fun c => fails c) ∧
    (broadcast_to_clients clients m fails).clients =
      clients.filter fun c => !fails c := by
  have h := broadcast_loop_spec fails (serializeMsg m) clients [] [] []
  refine ⟨?_, ?_, ?_, ?_⟩
  · simp [broadcast_to_clients, h]
  · simp [broadcast_to_clients, h]
  · simp [broadcast_to_clients, h]
  · simp only [broadcast_to_clients, h]
    simp only [List.nil_append]
    refine List.filter_congr ?_
    intro c hc
    by_cases hf : fails c
    · simp [List.mem_filter, hc, hf]
    · simp [List.mem_filter, hf]

/-- C5: whenever local verification of the freshly produced signature
fails, `create_order` fails with the signing error and performs zero
network calls to the exchange order endpoint. -/
theorem claim_C5_signing_gate (ped : Int → Int → Int) (sign : Int → Int × Int)
    (verify : Int → Int × Int → Int → Bool) (public_key : Int)
    (submit : Int → Int) (o : OrderParams)
    (hfail : verify (generate_order_hash ped o)
      (sign (generate_order_hash ped o)) public_key = false) :
    create_order ped sign verify public_key submit o =
      { result := .signingError "Signature verification failed"
        network_calls := 0 } := by
  simp [create_order, hfail]

/-- Witness for C5 with a verifier double that always fails. -/
theorem claim_C5_witness :
    create_order (fun a b => a + b) (fun h => (h, h)) (fun _ _ _ => false) 0
        (fun _ => 0)
        { market_id := 1, side := 0, price_scaled := 6000000000000
          size_scaled := 1000000, nonce := 1700000000, time_in_force := 3
          reduce_only := 0 } =
      { result := .signingError "Signature verification failed"
        network_calls := 0 } :=
  claim_C5_signing_gate (fun a b => a + b) (fun h => (h, h)) (fun _ _ _ => false)
    0 (fun _ => 0) _ rfl

/-- Membership in the keys of a map after `Map.set`. -/
theorem mapSet_keys_mem {α : Type} (m : List (String × α)) (k : String) (v : α)
    (a : String) :
    a ∈ (mapSet m k v).map Prod.fst ↔ a = k ∨ a ∈ m.map Prod.fst := by
  induction m with
  | nil => simp [mapSet]
  | cons p t ih =>
    rcases p with ⟨k2, v2⟩
    by_cases h : k2 = k
    · subst h
      simp [mapSet]
    · simp [mapSet, h, ih]
      tauto

/-- Keys present after folding the `setAllPositions` updater body over the
polled positions. -/
theorem updateFold_keys (pub : String → Option ℚ) :
    ∀ (positions : List PosIn) (acc : List (String × PosData)) (k : String),
      k ∈ (positions.foldl
        (fun updated pos =>
          if pos.status = "OPENED" then
            mapSet updated pos.market
              (toPosData pos (resolveMarkPrice (pub pos.market)
                (mapGet updated pos.market)))
          else updated) acc).map Prod.fst ↔
      k ∈ acc.map Prod.fst ∨
        k ∈ (positions.filter fun p => p.status = "OPENED").map PosIn.market
  | [], acc, k => by simp
  | pos :: t, acc, k => by
    by_cases h : pos.status = "OPENED"
    · rw [List.foldl_cons, if_pos h, updateFold_keys pub t, mapSet_keys_mem]
      simp [List.filter_cons, h]
      tauto
    · rw [List.foldl_cons, if_neg h, updateFold_keys pub t]
      simp [List.filter_cons, h]

/-- C6 counterexample: with a previous aggregate view containing market
"BTC-USD" and a non-empty poll reporting only an OPENED "ETH-USD" position,
the updated view still contains "BTC-USD" — it is NOT exactly the OPENED
positions of the poll, refuting the claimed removal of absent markets. -/
theorem claim_C6_counterexample :
    ((updateAllPositions
        [("BTC-USD",
          { market := "BTC-USD", side := "LONG", leverage := "10", size := "1"
            value := 0, openPrice := 0, markPrice := 0, liquidationPrice := 0
            unrealisedPnl := 0, realisedPnl := 0, margin := 0
            status := "OPENED", createdAt := 0, updatedAt := 0 })]
        [{ market := "ETH-USD", side := "LONG", leverage := "10", size := "1"
           value := 0, openPrice := 0, liquidationPrice := 0
           midPriceUnrealisedPnl := 0, realisedPnl := 0, margin := 0
           status := "OPENED", createdAt := 0, updatedAt := 0 }]
        (fun _ => none)).map Prod.fst = ["BTC-USD", "ETH-USD"]) ∧
    ([({ market := "ETH-USD", side := "LONG", leverage := "10", size := "1"
         value := 0, openPrice := 0, liquidationPrice := 0
         midPriceUnrealisedPnl := 0, realisedPnl := 0, margin := 0
         status := "OPENED", createdAt := 0, updatedAt := 0 } : PosIn)].map
        PosIn.market = ["ETH-USD"]) := by
  constructor
  · rfl
  · rfl

/-- C6 (amended): a poll reporting zero positions clears the aggregate
view entirely; a non-empty poll inserts or updates exactly the OPENED
positions it reports, keyed by market, while previously present markets
absent from the poll (and positions reported with a non-OPENED status) are
retained rather than removed. -/
theorem claim_C6_aggregate_keys (prev : List (String × PosData))
    (polled : List PosIn) (pub : String → Option ℚ) :
    (polled = [] → updateAllPositions prev polled pub = []) ∧
    (polled ≠ [] → ∀ k,
        k ∈ (updateAllPositions prev polled pub).map Prod.fst ↔
          k ∈ prev.map Prod.fst ∨
            k ∈ (polled.filter fun p => p.status = "OPENED").map PosIn.market) := by
  constructor
  · intro h
    subst h
    simp [updateAllPositions]
  · intro hne k
    have hne2 : polled.isEmpty = false := by
      cases polled with
      | nil => exact absurd rfl hne
      | cons p t => rfl
    unfold updateAllPositions
    rw [hne2]
    simp only [Bool.false_eq_true, if_false]
    exact updateFold_keys pub polled prev k

/-- Witness for C6 at concrete inputs. -/
theorem claim_C6_witness :
    updateAllPositions
        [("BTC-USD",
          { market := "BTC-USD", side := "LONG", leverage := "10", size := "1"
            value := 0, openPrice := 0, markPrice := 0, liquidationPrice := 0
            unrealisedPnl := 0, realisedPnl := 0, margin := 0
            status := "OPENED", createdAt := 0, updatedAt := 0 })]
        [] (fun _ => none) = [] :=
  (claim_C6_aggregate_keys _ [] (fun _ => none)).1 rfl

/-- Helper: the fold of `stop_bot` issues exactly one attempt per tracked
order, in order, each with its own outcome. -/
theorem stopFold_eq_map (cancelOk : String → Bool) :
    ∀ (orders : List (String × OrderInfo)) (acc : List (String × Bool)),
      orders.foldl (fun acc2 kv => acc2 ++ [(kv.1, cancelOk kv.1)]) acc =
        acc ++ orders.map (fun kv => (kv.1, cancelOk kv.1))
  | [], acc => by simp
  | kv :: t, acc => by
    simp [List.foldl_cons, stopFold_eq_map cancelOk t]

/-- C9: stopping the engine with N tracked orders issues exactly one cancel
attempt per tracked order (each attempt independent, carrying its own
outcome), and leaves `ACTIVE_BOT_ORDERS` empty and the bot stopped,
whatever the individual cancel outcomes were. -/
theorem claim_C9_stop_cancels_all (orders : List (String × OrderInfo))
    (cancelOk : String → Bool) :
    (stop_bot orders cancelOk).attempts =
      orders.map (fun kv => (kv.1, cancelOk kv.1)) ∧
    (stop_bot orders cancelOk).attempts.length = orders.length ∧
    (stop_bot orders cancelOk).active_bot_orders = [] ∧
    (stop_bot orders cancelOk).running = false := by
  have h := stopFold_eq_map cancelOk orders []
  refine ⟨by simp [stop_bot, h], by simp [stop_bot, h], rfl, rfl⟩

/-- C7: the refresh trigger compares strictly; in binary64 arithmetic
(exactly as the Python floats evaluate) a move from 100 to 100.19 with
threshold 0.002 does not requote while 100.21 does, the same verdicts hold
in exact arithmetic, and a relative move of exactly the threshold never
requotes (strictness). -/
theorem claim_C7_refresh_trigger :
    needs_refresh (dyLit 10019 100) ⟨100, 0⟩ (dyLit 2 1000) = false ∧
    needs_refresh (dyLit 10021 100) ⟨100, 0⟩ (dyLit 2 1000) = true ∧
    needs_refreshExact (10019 / 100) 100 (2 / 1000) = false ∧
    needs_refreshExact (10021 / 100) 100 (2 / 1000) = true ∧
    (∀ last th : ℚ, 0 < last → 0 ≤ th →
        needs_refreshExact (last * (1 + th)) last th = false) := by
  refine ⟨by decide, by decide, ?_, ?_, ?_⟩
  · simp only [needs_refreshExact, decide_eq_false_iff_not]
    rw [show (10019 : ℚ) / 100 - 100 = 19 / 100 by norm_num,
      abs_of_nonneg (by norm_num : (0 : ℚ) ≤ 19 / 100)]
    norm_num
  · simp only [needs_refreshExact, decide_eq_true_eq]
    rw [show (10021 : ℚ) / 100 - 100 = 21 / 100 by norm_num,
      abs_of_nonneg (by norm_num : (0 : ℚ) ≤ 21 / 100)]
    norm_num
  · intro last th hl hth
    have h2 : |last * (1 + th) - last| / last = th := by
      have h1 : last * (1 + th) - last = last * th := by ring
      rw [h1, abs_of_nonneg (mul_nonneg hl.le hth), mul_comm, mul_div_assoc,
        div_self hl.ne', mul_one]
    simp [needs_refreshExact, h2]

/-- Witness for C7 at the exact threshold boundary. -/
theorem claim_C7_witness :
    needs_refreshExact (100 * (1 + 2 / 1000)) 100 (2 / 1000) = false :=
  claim_C7_refresh_trigger.2.2.2.2 100 (2 / 1000) (by norm_num) (by norm_num)

/-- C8 counterexample: at price 60000 and spread 0.001, the ask computed by
`calculate_quotes` in binary64 arithmetic (as the Python floats evaluate)
is NOT exactly 60060. -/
theorem claim_C8_counterexample :
    Dy.toQ (calculate_quotes ⟨60000, 0⟩ (dyLit 1 1000)).2 ≠ 60060 := by
  have h : (calculate_quotes ⟨60000, 0⟩ (dyLit 1 1000)).2 =
      ⟨8254583545528319, -37⟩ := by decide
  rw [h]
  norm_num [Dy.toQ, show Int.toNat 37 = 37 from rfl]

/-- C8 (amended): `calculate_quotes` evaluates bid = price * (1 - spread)
and ask = price * (1 + spread) in binary64 arithmetic; at price 60000 and
spread 0.001 the bid is exactly 59940.0, while the ask is 60060 - 2 ^ (-37)
(one unit in the last place below 60060, within 10 ^ (-11) of it), not
exactly 60060. -/
theorem claim_C8_quotes_binary64 :
    Dy.toQ (calculate_quotes ⟨60000, 0⟩ (dyLit 1 1000)).1 = 59940 ∧
    Dy.toQ (calculate_quotes ⟨60000, 0⟩ (dyLit 1 1000)).2 = 60060 - 1 / 2 ^ 37 ∧
    |(60060 : ℚ) - Dy.toQ (calculate_quotes ⟨60000, 0⟩ (dyLit 1 1000)).2| <
      1 / 10 ^ 11 := by
  have h1 : (calculate_quotes ⟨60000, 0⟩ (dyLit 1 1000)).1 =
      ⟨8238090871111680, -37⟩ := by decide
  have h2 : (calculate_quotes ⟨60000, 0⟩ (dyLit 1 1000)).2 =
      ⟨8254583545528319, -37⟩ := by decide
  rw [h1, h2]
  have ht : Int.toNat 37 = 37 := rfl
  have hv : Dy.toQ ⟨8254583545528319, -37⟩ = 8254583545528319 / 137438953472 := by
    norm_num [Dy.toQ, ht]
  refine ⟨?_, ?_, ?_⟩
  · norm_num [Dy.toQ, ht]
  · norm_num [Dy.toQ, ht]
  · rw [hv,
      show (60060 : ℚ) - 8254583545528319 / 137438953472 = 1 / 137438953472 by
        norm_num,
      abs_of_pos (by norm_num : (0 : ℚ) < 1 / 137438953472)]
    norm_num

/-- C10 counterexample: a balance diff message DOES modify a state field
other than the stored balance — it records the message in `lastMessage` —
refuting the claimed frame condition. -/
theorem claim_C10_counterexample :
    (handleMessage initHook demoBalMsg "10:00:00").lastMessage ≠
      initHook.lastMessage := by decide

/-- C10 (amended): `ping` and `positions` messages leave the whole hook
state unchanged; a snapshot sets `isConnected` and clears `error` and, when
it carries a balance payload, replaces the stored balance with exactly the
four critical fields and a fresh `lastUpdate.balance`, leaving
`lastMessage` alone; a balance diff with data replaces the stored balance
with exactly the four critical fields, refreshes `lastUpdate.balance`, and
also records the message in `lastMessage`; a trades diff only records the
message. -/
theorem claim_C10_handler_frame (st : HookState) (msg : InMsg) (now : String) :
    (msg.mtype = "ping" → handleMessage st msg now = st) ∧
    (msg.mtype = "positions" → handleMessage st msg now = st) ∧
    (∀ bw, msg.mtype = "snapshot" → msg.balance = some bw →
        handleMessage st msg now =
          { st with
            isConnected := true
            error := none
            edBalance := some (criticalOf (unwrapBal bw))
            edLastUpdate := some now }) ∧
    (msg.mtype = "snapshot" → msg.balance = none →
        handleMessage st msg now = { st with isConnected := true, error := none }) ∧
    (∀ bw, msg.mtype = "balance" → msg.data = some bw →
        handleMessage st msg now =
          { st with
            edBalance := some (criticalOf (unwrapBal bw))
            edLastUpdate := some now
            lastMessage := some msg }) ∧
    (msg.mtype = "trades" → handleMessage st msg now = { st with lastMessage := some msg }) := by
  refine ⟨?_, ?_, ?_, ?_, ?_, ?_⟩
  · intro h
    simp [handleMessage, h]
  · intro h
    simp [handleMessage, h]
  · intro bw h hb
    simp [handleMessage, h, hb]
  · intro h hb
    simp [handleMessage, h, hb]
  · intro bw h hd
    simp [handleMessage, h, hd]
  · intro h
    simp [handleMessage, h]

/-- Witness for C10 on concrete messages. -/
theorem claim_C10_witness :
    handleMessage initHook
        { mtype := "ping", data := none, balance := none, timestamp := some 1 }
        "10:00:00" = initHook ∧
    handleMessage initHook demoBalMsg "10:00:00" =
      { initHook with
        edBalance := some (criticalOf (unwrapBal (BalWrap.flat demoBal)))
        edLastUpdate := some "10:00:00"
        lastMessage := some demoBalMsg } := by
  have h := claim_C10_handler_frame initHook demoBalMsg "10:00:00"
  obtain ⟨-, -, -, -, h5, -⟩ := h
  exact ⟨(claim_C10_handler_frame initHook
      { mtype := "ping", data := none, balance := none, timestamp := some 1 }
      "10:00:00").1 rfl,
    h5 (BalWrap.flat demoBal) rfl rfl⟩
